import Mathlib

/-!
Shallow embedding of `src/train.py` (PASCAL-VOC-2007-Segmentation).

The script orchestrates training of segmentation networks.  Framework
computations (forward passes, losses, IoU, pixel accuracy) are opaque to the
script; we embed them as oracle values of type `ℚ` (per-batch metric values)
and embed the script's own control flow faithfully:

* `load_constants`   — reads eight keys from the parsed YAML config;
* `get_model_optimizer_scheduler` — model selection on `model_type.lower()`,
  device selection, the conditionally-assigned locals `scheduler` and
  `class_weights` (unbound-local behaviour at the `return`);
* `valRun` / `valLoop` — the `val` function: eval mode, per-batch metric
  accumulation, means, back to train mode;
* `epochStepData` / `runFrom` / `runTrain` — the `train` loop: per-epoch mean
  training loss, best-mIoU checkpointing, early-stopping counter with
  patience 5, `break`;
* `valE`, `runFromE`, `modelTestE`, `mainRun` — the same control flow with
  fallible framework steps (`Except`), to reason about uncaught exception
  propagation;
* `save_location` / `checkpoint_path` / `artifact_path` — the artifact paths
  built from the `Results` directory and `model_identifier`.

Progress bars, `print`/`tqdm` output, garbage collection and timing are
omitted: they do not affect any value or path the claims mention.
-/

/-- Python exceptions relevant to the script: `KeyError` (config access),
`NameError`/`UnboundLocalError` (reading a never-assigned local), and
framework/runtime errors (device or memory errors, ...). -/
inductive PyExc where
  | keyErr : String → PyExc
  | nameErr : String → PyExc
  | runtimeErr : String → PyExc
deriving DecidableEq

/-- The architectures selectable in `get_model_optimizer_scheduler`
(train.py lines 80-103). -/
inductive ModelKind where
  | unet
  | resnet
  | newArch
  | resnet50
  | resnetLeaky
  | resnet2ModelSkipResCat
  | resnetSkipResidual
  | fcn
deriving DecidableEq

/-- The state of a torch module that the script manipulates: its architecture,
number of classes, parameter tensors (opaque, embedded as a list of rationals),
training/eval mode, and the device it lives on. -/
structure Model where
  kind : ModelKind
  nClass : ℕ
  params : List ℚ
  training : Bool
  device : String
deriving DecidableEq

/-- The framework-computed metric values of one validation/test batch:
`criterion(output, label).item()`, `util.iou(pred, label)`,
`util.pixel_acc(pred, label)`.  These are oracle values: the script only
aggregates them. -/
structure BatchEval where
  lossVal : ℚ
  iouVal : ℚ
  accVal : ℚ
deriving DecidableEq

/-- `np.mean` on a list of scalars: sum divided by length. -/
def npMean (xs : List ℚ) : ℚ := xs.sum / xs.length

/-- Python `str.lower()` (ASCII case mapping, which is all the script's
`model_type` comparisons use). -/
def lowerStr (s : String) : String := ⟨s.data.map Char.toLower⟩

/-- `fcn_model.eval()` — train.py line 206. -/
def modelEval (m : Model) : Model := { m with training := false }

/-- `fcn_model.train()` — train.py line 237. -/
def modelTrain (m : Model) : Model := { m with training := true }

/-- The loop body of `val` (train.py lines 214-230): for each batch, append the
batch loss, IoU and pixel accuracy to the three accumulator lists.  The model
is only read (forward pass under `no_grad`), never written, so it is threaded
through unchanged. -/
def valLoop (m : Model) (acc : List ℚ × List ℚ × List ℚ) :
    List BatchEval → Model × (List ℚ × List ℚ × List ℚ)
  | [] => (m, acc)
  | b :: rest =>
      valLoop m (acc.1 ++ [b.lossVal], acc.2.1 ++ [b.iouVal], acc.2.2 ++ [b.accVal]) rest

/-- The `val` function (train.py lines 205-239): put the model in eval mode,
accumulate per-batch metrics, put the model back in train mode, and return
`(np.mean(mean_iou_scores), np.mean(accuracy), np.mean(losses))`. -/
def valRun (m : Model) (batches : List BatchEval) : Model × (ℚ × ℚ × ℚ) :=
  let m1 := modelEval m
  let r := valLoop m1 ([], [], []) batches
  (modelTrain r.1, (npMean r.2.2.1, npMean r.2.2.2, npMean r.2.1))

/-- A placeholder module used to read off the (model-independent) metric
component of `valRun`. -/
def defaultModel : Model := ⟨ModelKind.fcn, 21, [], true, "cpu"⟩

/-- The metric triple `val` returns: `(mean IoU, pixel accuracy, loss)`. -/
def valTriple (batches : List BatchEval) : ℚ × ℚ × ℚ :=
  (valRun defaultModel batches).2

/-- Model construction in `get_model_optimizer_scheduler`
(train.py lines 80-103): dispatch on `model_type.lower()`, defaulting to the
basic `FCN` with `n_class = 21` in the final `else`.  `w` stands for the
(opaque) parameters produced by construction plus weight initialisation. -/
def buildModel (model_type : String) (_freeze_encoder : Bool) (w : List ℚ) : Model :=
  if lowerStr model_type = "unet" then ⟨ModelKind.unet, 21, w, true, "cpu"⟩
  else if lowerStr model_type = "resnet" then ⟨ModelKind.resnet, 21, w, true, "cpu"⟩
  else if lowerStr model_type = "new_arch" then ⟨ModelKind.newArch, 21, w, true, "cpu"⟩
  else if lowerStr model_type = "resnet50" then ⟨ModelKind.resnet50, 21, w, true, "cpu"⟩
  else if lowerStr model_type = "resnet_leaky" then ⟨ModelKind.resnetLeaky, 21, w, true, "cpu"⟩
  else if lowerStr model_type = "resnet_2model_skip_res_cat" then
    ⟨ModelKind.resnet2ModelSkipResCat, 21, w, true, "cpu"⟩
  else if lowerStr model_type = "resnet_skip_residual" then
    ⟨ModelKind.resnetSkipResidual, 21, w, true, "cpu"⟩
  else ⟨ModelKind.fcn, 21, w, true, "cpu"⟩

/-- The part of `get_model_optimizer_scheduler`'s return value the claims are
about: the model (already moved to the device), the device string, the epochs,
the run identifier, and whether the criterion carries class weights. -/
structure GMOS where
  fcn_model : Model
  device : String
  epochs : ℕ
  model_identifier : String
  weightedCriterion : Bool
deriving DecidableEq

/-- `get_model_optimizer_scheduler` (train.py lines 61-122).  `scheduler` is
assigned only under `if cosine_annealing:` (line 110) and `class_weights` only
under `if use_class_weights:` (line 113), yet both names appear in the
`return` (line 122); a Python local read before any assignment raises
`UnboundLocalError` (a `NameError`), names being evaluated left to right, so
`scheduler` is reported first.  Data loaders and the optimizer are opaque and
omitted; the model is moved to the device (line 121) before the return. -/
def get_model_optimizer_scheduler (cosine_annealing use_class_weights : Bool)
    (epochs : ℕ) (model_type model_identifier : String) (freeze_encoder : Bool)
    (w : List ℚ) (cudaAvail : Bool) : Except PyExc GMOS :=
  let m0 := buildModel model_type freeze_encoder w
  let device := if cudaAvail then "cuda" else "cpu"
  let schedulerLocal : Option Unit := if cosine_annealing then some () else none
  let classWeightsLocal : Option Unit := if use_class_weights then some () else none
  let m1 := { m0 with device := device }
  match schedulerLocal with
  | none => Except.error (PyExc.nameErr "scheduler")
  | some _ =>
      match classWeightsLocal with
      | none => Except.error (PyExc.nameErr "class_weights")
      | some _ =>
          Except.ok ⟨m1, device, epochs, model_identifier, use_class_weights⟩

/-- YAML scalar values as they occur in the configs. -/
inductive YVal where
  | yBool : Bool → YVal
  | yNat : ℕ → YVal
  | yStr : String → YVal
deriving DecidableEq

/-- `config[k]` on the parsed YAML dict: the value at `k`, or `KeyError k`. -/
def getKey (config : List (String × YVal)) (k : String) : Except PyExc YVal :=
  match config.lookup k with
  | some v => Except.ok v
  | none => Except.error (PyExc.keyErr k)

/-- `load_constants` (train.py lines 41-58): read the eight keys from the
parsed config, in source order, and return their values as a tuple (the
`print` calls are omitted). -/
def load_constants (config : List (String × YVal)) :
    Except PyExc (YVal × YVal × YVal × YVal × YVal × YVal × YVal × YVal) := do
  let cosine_annealing ← getKey config "cosine_annealing"
  let random_transforms ← getKey config "random_transforms"
  let use_class_weights ← getKey config "class_imbalance_fix"
  let epochs ← getKey config "epochs"
  let batch_size ← getKey config "batch_size"
  let model_type ← getKey config "model_type"
  let model_identifier ← getKey config "model_identifier"
  let freeze_encoder ← getKey config "freeze_encoder"
  return (cosine_annealing, random_transforms, use_class_weights, epochs,
    batch_size, model_type, model_identifier, freeze_encoder)

/-- `path = 'Results'` in the main block (train.py line 291). -/
def results_dir : String := "Results"

/-- `save_location = path + '/' + model_identifier` (train.py line 294). -/
def save_location (model_identifier : String) : String :=
  results_dir ++ "/" ++ model_identifier

/-- `path = save_location + 'model.pt'` (train.py lines 186 and 243): the
checkpoint written by `torch.save` and read back by `torch.load`. -/
def checkpoint_path (model_identifier : String) : String :=
  save_location model_identifier ++ "model.pt"

/-- Modelled from the spec: `util.plots` and `util.plot_predictions` live in
`util.py`, which is not among the sources; per the spec they write each
prediction/plot artifact at a path extending the `saveLocation` prefix that
`train` and `modelTest` pass them (train.py lines 202 and 270), here
`save_location` plus an artifact-specific suffix. -/
def artifact_path (model_identifier : String) (suffix : String) : String :=
  save_location model_identifier ++ suffix

/-- The directory component of a path: everything before the last `/`
(`os.path.dirname` on slash-separated paths). -/
def parentDir (p : String) : String :=
  ⟨(((p.data.reverse.dropWhile (fun c => c != '/')).drop 1)).reverse⟩

/-- The mutable state of the `train` loop (train.py lines 131-146).  The numpy
arrays `train_loss`, `val_loss`, `mean_iou_scores`, `val_accuracy` are
pre-allocated with zeros and written once per completed epoch at index
`epoch`; we keep the written prefix as a list.  `savedEpochs` records the
epochs at which `torch.save` executed (line 187); `earlyStopAt` is the
variable `earlyStop` (-1 until the `break`); `done` counts completed loop
iterations. -/
structure TrainState where
  best_iou_score : ℚ
  bad_epochs : ℕ
  earlyStopAt : ℤ
  savedEpochs : List ℕ
  train_loss : List ℚ
  val_loss : List ℚ
  mean_iou_scores : List ℚ
  val_accuracy : List ℚ
  broke : Bool
  done : ℕ
deriving DecidableEq

/-- State before the first epoch: `best_iou_score = 0.0`, `bad_epochs = 0`,
`earlyStop = -1` (train.py lines 131, 141-142). -/
def initState : TrainState := ⟨0, 0, -1, [], [], [], [], [], false, 0⟩

/-- The inner training-batch loop of an epoch (train.py lines 154-168 as far
as it touches `train_losses`): each batch appends its `loss.item()` to the
list.  Gradient and optimizer/scheduler steps are framework-internal; the
resulting per-batch loss values are the oracle input `ls`. -/
def trainBatchLosses (acc : List ℚ) : List ℚ → List ℚ
  | [] => acc
  | l :: rest => trainBatchLosses (acc ++ [l]) rest

/-- One iteration of the `train` loop at `epoch` (train.py lines 151-198),
given the oracle per-batch training losses `tlosses` and validation batches
`vbatches` of that epoch:
record `np.mean(train_losses)`; run `val`; record its results; save (and
update `best_iou_score`) when `current_miou_score > best_iou_score`
(lines 184-188); update the bad-epoch counter — the flag `early_stop` is the
constant `True` (line 137), so the guard is
`epoch > 0 and current_val_loss > val_loss[epoch - 1]` (lines 190-193); and
set `earlyStop`/break when `bad_epochs > early_stop_patience = 5`
(lines 194-198). -/
def epochStepData (s : TrainState) (epoch : ℕ) (tlosses : List ℚ)
    (vbatches : List BatchEval) : TrainState :=
  let tRec := s.train_loss ++ [npMean (trainBatchLosses [] tlosses)]
  let r := valTriple vbatches
  let current_miou_score := r.1
  let current_accuracy := r.2.1
  let current_val_loss := r.2.2
  let best' :=
    if s.best_iou_score < current_miou_score then current_miou_score
    else s.best_iou_score
  let saved' :=
    if s.best_iou_score < current_miou_score then s.savedEpochs ++ [epoch]
    else s.savedEpochs
  let bad' :=
    if 0 < epoch ∧ s.val_loss.getD (epoch - 1) 0 < current_val_loss then
      s.bad_epochs + 1
    else 0
  let s' : TrainState :=
    ⟨best', bad', s.earlyStopAt, saved', tRec, s.val_loss ++ [current_val_loss],
      s.mean_iou_scores ++ [current_miou_score],
      s.val_accuracy ++ [current_accuracy], s.broke, s.done + 1⟩
  if 5 < bad' then { s' with earlyStopAt := (epoch : ℤ), broke := true } else s'

/-- `epochStepData` fed from the per-epoch oracles `tL` (training-batch
losses) and `vB` (validation batches). -/
def epochStep (tL : ℕ → List ℚ) (vB : ℕ → List BatchEval) (s : TrainState)
    (epoch : ℕ) : TrainState :=
  epochStepData s epoch (tL epoch) (vB epoch)

/-- `for epoch in range(epochs)` with the early-stopping `break`
(train.py lines 151-198): run `epochStep` for the remaining `fuel` epochs
starting at `epoch`, stopping as soon as an iteration breaks. -/
def runFrom (tL : ℕ → List ℚ) (vB : ℕ → List BatchEval) :
    ℕ → ℕ → TrainState → TrainState
  | _, 0, s => s
  | epoch, fuel + 1, s =>
      let s' := epochStep tL vB s epoch
      if s'.broke then s' else runFrom tL vB (epoch + 1) fuel s'

/-- The whole `train` loop for `epochs` configured epochs. -/
def runTrain (tL : ℕ → List ℚ) (vB : ℕ → List BatchEval) (epochs : ℕ) :
    TrainState :=
  runFrom tL vB 0 epochs initState

/-- The state after `k` loop iterations when no `break` interferes:
iterating `epochStep` from `initState`. -/
def iterState (tL : ℕ → List ℚ) (vB : ℕ → List BatchEval) : ℕ → TrainState
  | 0 => initState
  | k + 1 => epochStep tL vB (iterState tL vB k) k

/-- The validation mean-IoU of epoch `e` (first component of `val`'s
result). -/
def miouOf (vB : ℕ → List BatchEval) (e : ℕ) : ℚ := (valTriple (vB e)).1

/-- The validation pixel accuracy of epoch `e`. -/
def accOf (vB : ℕ → List BatchEval) (e : ℕ) : ℚ := (valTriple (vB e)).2.1

/-- The validation loss of epoch `e` (last component of `val`'s result). -/
def vlossOf (vB : ℕ → List BatchEval) (e : ℕ) : ℚ := (valTriple (vB e)).2.2

/-- The value of `best_iou_score` entering epoch `k`: the maximum of `0.0`
and the mean-IoU scores of the earlier epochs. -/
def bestFold (vB : ℕ → List BatchEval) : ℕ → ℚ
  | 0 => 0
  | k + 1 => max (bestFold vB k) (miouOf vB k)

/-- The value of `bad_epochs` entering epoch `k`: the length of the maximal
streak of strictly-worsening validation epochs ending at epoch `k - 1`. -/
def badSeq (vB : ℕ → List BatchEval) : ℕ → ℕ
  | 0 => 0
  | k + 1 =>
      if 0 < k ∧ vlossOf vB (k - 1) < vlossOf vB k then badSeq vB k + 1 else 0

/-- The `val` loop with fallible framework steps: each batch's framework
evaluation either raises (`.error`) or yields its metric values.  The script
has no `try`/`except` (train.py lines 205-239), so the first raise propagates
out of `val` unchanged. -/
def valE (batches : List (Except PyExc BatchEval))
    (acc : List ℚ × List ℚ × List ℚ) : Except PyExc (ℚ × ℚ × ℚ) :=
  match batches with
  | [] => Except.ok (npMean acc.2.1, npMean acc.2.2, npMean acc.1)
  | b :: rest =>
      match b with
      | Except.error e => Except.error e
      | Except.ok bv =>
          valE rest (acc.1 ++ [bv.lossVal], acc.2.1 ++ [bv.iouVal], acc.2.2 ++ [bv.accVal])

/-- The `train` loop with fallible epochs: `tvB epoch` either raises somewhere
inside epoch `epoch`'s framework work or yields the epoch's training-batch
losses and validation batches.  `train` has no `try`/`except`
(train.py lines 125-202), so a raise propagates out of the loop. -/
def runFromE (tvB : ℕ → Except PyExc (List ℚ × List BatchEval)) :
    ℕ → ℕ → TrainState → Except PyExc TrainState
  | _, 0, s => Except.ok s
  | epoch, fuel + 1, s =>
      match tvB epoch with
      | Except.error e => Except.error e
      | Except.ok d =>
          let s' := epochStepData s epoch d.1 d.2
          if s'.broke then Except.ok s' else runFromE tvB (epoch + 1) fuel s'

/-- The per-batch loop of `modelTest` (train.py lines 254-271) with fallible
framework steps; same accumulation as `val`, no `try`/`except`. -/
def modelTestLoopE (batches : List (Except PyExc BatchEval))
    (acc : List ℚ × List ℚ × List ℚ) : Except PyExc (ℚ × ℚ × ℚ) :=
  match batches with
  | [] => Except.ok (npMean acc.2.1, npMean acc.2.2, npMean acc.1)
  | b :: rest =>
      match b with
      | Except.error e => Except.error e
      | Except.ok bv =>
          modelTestLoopE rest
            (acc.1 ++ [bv.lossVal], acc.2.1 ++ [bv.iouVal], acc.2.2 ++ [bv.accVal])

/-- `modelTest` (train.py lines 242-275): `torch.load` of the checkpoint
(fallible), then the batch loop; no `try`/`except`. -/
def modelTestE (loadRes : Except PyExc Model)
    (batches : List (Except PyExc BatchEval)) : Except PyExc (ℚ × ℚ × ℚ) :=
  match loadRes with
  | Except.error e => Except.error e
  | Except.ok _ => modelTestLoopE batches ([], [], [])

/-- The `__main__` block (train.py lines 281-309): `load_constants`, then
`get_model_optimizer_scheduler`, then the pre-training `val`, then `train`,
then `modelTest`, sequenced with no `try`/`except` anywhere, so the first
exception of any stage aborts the program. -/
def mainRun (config : List (String × YVal)) (cosine_annealing use_class_weights : Bool)
    (epochs : ℕ) (model_type model_identifier : String) (freeze_encoder : Bool)
    (w : List ℚ) (cudaAvail : Bool)
    (valB0 : List (Except PyExc BatchEval))
    (tvB : ℕ → Except PyExc (List ℚ × List BatchEval))
    (loadRes : Except PyExc Model)
    (testB : List (Except PyExc BatchEval)) : Except PyExc Unit := do
  let _ ← load_constants config
  let _ ← get_model_optimizer_scheduler cosine_annealing use_class_weights epochs
    model_type model_identifier freeze_encoder w cudaAvail
  let _ ← valE valB0 ([], [], [])
  let _ ← runFromE tvB 0 epochs initState
  let _ ← modelTestE loadRes testB
  return ()

/-! ## Helper lemmas about the embedding -/

theorem trainBatchLosses_eq (l : List ℚ) : ∀ acc, trainBatchLosses acc l = acc ++ l := by
  induction l with
  | nil => intro acc; simp [trainBatchLosses]
  | cons x rest ih => intro acc; simp [trainBatchLosses, ih]

theorem valLoop_eq (bs : List BatchEval) :
    ∀ (m : Model) (acc : List ℚ × List ℚ × List ℚ),
      valLoop m acc bs =
        (m, (acc.1 ++ bs.map BatchEval.lossVal, acc.2.1 ++ bs.map BatchEval.iouVal,
             acc.2.2 ++ bs.map BatchEval.accVal)) := by
  induction bs with
  | nil => intro m acc; simp [valLoop]
  | cons b rest ih => intro m acc; simp [valLoop, ih]

theorem valRun_eq (m : Model) (bs : List BatchEval) :
    valRun m bs =
      (modelTrain (modelEval m),
        (npMean (bs.map BatchEval.iouVal), npMean (bs.map BatchEval.accVal),
         npMean (bs.map BatchEval.lossVal))) := by
  simp [valRun, valLoop_eq]

theorem valTriple_eq (bs : List BatchEval) :
    valTriple bs =
      (npMean (bs.map BatchEval.iouVal), npMean (bs.map BatchEval.accVal),
       npMean (bs.map BatchEval.lossVal)) := by
  simp [valTriple, valRun_eq]

theorem getD_range_map (f : ℕ → ℚ) (k i : ℕ) (h : i < k) :
    ((List.range k).map f).getD i 0 = f i := by
  rw [List.getD_eq_getElem _ _ (by simpa using h)]
  simp

theorem ite_lt_max (a b : ℚ) : (if a < b then b else a) = max a b := by
  rcases lt_or_ge a b with h | h
  · simp [h, max_eq_right h.le]
  · simp [not_lt.mpr h, max_eq_left h]

theorem ite_append_singleton (c : Prop) [Decidable c] (l : List ℕ) (a : ℕ) :
    (if c then l ++ [a] else l) = l ++ if c then [a] else [] := by
  split <;> simp

theorem epochStepData_done (s : TrainState) (e : ℕ) (tl : List ℚ) (vb : List BatchEval) :
    (epochStepData s e tl vb).done = s.done + 1 := by
  simp only [epochStepData]
  split <;> split <;> rfl

theorem epochStepData_train_loss (s : TrainState) (e : ℕ) (tl : List ℚ) (vb : List BatchEval) :
    (epochStepData s e tl vb).train_loss = s.train_loss ++ [npMean tl] := by
  simp only [epochStepData]
  split <;> split <;> simp [trainBatchLosses_eq]

theorem epochStepData_val_loss (s : TrainState) (e : ℕ) (tl : List ℚ) (vb : List BatchEval) :
    (epochStepData s e tl vb).val_loss = s.val_loss ++ [(valTriple vb).2.2] := by
  simp only [epochStepData]
  split <;> split <;> rfl

theorem epochStepData_best (s : TrainState) (e : ℕ) (tl : List ℚ) (vb : List BatchEval) :
    (epochStepData s e tl vb).best_iou_score =
      max s.best_iou_score (valTriple vb).1 := by
  simp only [epochStepData]
  split <;> split <;> exact ite_lt_max _ _

theorem epochStepData_saved (s : TrainState) (e : ℕ) (tl : List ℚ) (vb : List BatchEval) :
    (epochStepData s e tl vb).savedEpochs =
      s.savedEpochs ++ if s.best_iou_score < (valTriple vb).1 then [e] else [] := by
  simp only [epochStepData]
  split <;> split <;> exact ite_append_singleton _ _ _

theorem epochStepData_bad (s : TrainState) (e : ℕ) (tl : List ℚ) (vb : List BatchEval) :
    (epochStepData s e tl vb).bad_epochs =
      if 0 < e ∧ s.val_loss.getD (e - 1) 0 < (valTriple vb).2.2 then s.bad_epochs + 1
      else 0 := by
  simp only [epochStepData]
  split <;> split <;> rfl

theorem epochStepData_broke (s : TrainState) (e : ℕ) (tl : List ℚ) (vb : List BatchEval) :
    (epochStepData s e tl vb).broke =
      (s.broke || decide (5 < (epochStepData s e tl vb).bad_epochs)) := by
  rw [epochStepData_bad]
  simp only [epochStepData]
  split <;> split <;> simp_all

theorem epochStepData_earlyStopAt (s : TrainState) (e : ℕ) (tl : List ℚ) (vb : List BatchEval)
    (h : ¬ 5 < (epochStepData s e tl vb).bad_epochs) :
    (epochStepData s e tl vb).earlyStopAt = s.earlyStopAt := by
  rw [epochStepData_bad] at h
  simp only [epochStepData]
  rw [if_neg h]

theorem iterState_spec (tL : ℕ → List ℚ) (vB : ℕ → List BatchEval) : ∀ k : ℕ,
    (iterState tL vB k).done = k ∧
    (iterState tL vB k).val_loss = (List.range k).map (vlossOf vB) ∧
    (iterState tL vB k).train_loss = (List.range k).map (fun i => npMean (tL i)) ∧
    (iterState tL vB k).best_iou_score = bestFold vB k ∧
    (iterState tL vB k).bad_epochs = badSeq vB k ∧
    (iterState tL vB k).savedEpochs =
      (List.range k).filter (fun i => decide (bestFold vB i < miouOf vB i)) ∧
    ((iterState tL vB k).broke = true ↔ ∃ j, j < k ∧ 5 < badSeq vB (j + 1)) := by
  intro k
  induction k with
  | zero => simp [iterState, initState, bestFold, badSeq]
  | succ k ih =>
    obtain ⟨hdone, hval, htrain, hbest, hbad, hsaved, hbroke⟩ := ih
    have hstep : iterState tL vB (k + 1) =
        epochStepData (iterState tL vB k) k (tL k) (vB k) := rfl
    have hdone' : (iterState tL vB (k + 1)).done = k + 1 := by
      rw [hstep, epochStepData_done, hdone]
    have hval' : (iterState tL vB (k + 1)).val_loss =
        (List.range (k + 1)).map (vlossOf vB) := by
      rw [hstep, epochStepData_val_loss, hval, List.range_succ]
      simp [vlossOf]
    have htrain' : (iterState tL vB (k + 1)).train_loss =
        (List.range (k + 1)).map (fun i => npMean (tL i)) := by
      rw [hstep, epochStepData_train_loss, htrain, List.range_succ]
      simp
    have hbest' : (iterState tL vB (k + 1)).best_iou_score = bestFold vB (k + 1) := by
      rw [hstep, epochStepData_best, hbest]
      simp [bestFold, miouOf]
    have hbad' : (iterState tL vB (k + 1)).bad_epochs = badSeq vB (k + 1) := by
      rw [hstep, epochStepData_bad, hbad, hval]
      rcases Nat.eq_zero_or_pos k with hk | hk
      · subst hk; simp [badSeq]
      · have hg : ((List.range k).map (vlossOf vB)).getD (k - 1) 0 = vlossOf vB (k - 1) :=
          getD_range_map _ _ _ (by omega)
        rw [hg]
        simp [badSeq, vlossOf]
    have hsaved' : (iterState tL vB (k + 1)).savedEpochs =
        (List.range (k + 1)).filter (fun i => decide (bestFold vB i < miouOf vB i)) := by
      rw [hstep, epochStepData_saved, hsaved, hbest, List.range_succ, List.filter_append]
      congr 1
      by_cases h : bestFold vB k < (valTriple (vB k)).1 <;>
        simp [List.filter, miouOf, h]
    have hbroke' : ((iterState tL vB (k + 1)).broke = true ↔
        ∃ j, j < k + 1 ∧ 5 < badSeq vB (j + 1)) := by
      rw [hstep, epochStepData_broke, ← hstep, hbad']
      simp only [Bool.or_eq_true, decide_eq_true_iff, hbroke]
      constructor
      · rintro (⟨j, hj, h5⟩ | h5)
        · exact ⟨j, by omega, h5⟩
        · exact ⟨k, by omega, h5⟩
      · rintro ⟨j, hj, h5⟩
        rcases Nat.lt_succ_iff_lt_or_eq.mp hj with h | h
        · exact Or.inl ⟨j, h, h5⟩
        · subst h; exact Or.inr h5
    exact ⟨hdone', hval', htrain', hbest', hbad', hsaved', hbroke'⟩

theorem iterState_broke_mono (tL : ℕ → List ℚ) (vB : ℕ → List BatchEval)
    {a b : ℕ} (hab : a ≤ b) (h : (iterState tL vB a).broke = true) :
    (iterState tL vB b).broke = true := by
  obtain ⟨j, hj, h5⟩ := ((iterState_spec tL vB a).2.2.2.2.2.2).mp h
  exact ((iterState_spec tL vB b).2.2.2.2.2.2).mpr ⟨j, by omega, h5⟩

theorem runFrom_broke (tL : ℕ → List ℚ) (vB : ℕ → List BatchEval) :
    ∀ (fuel epoch : ℕ), (iterState tL vB epoch).broke = false →
      ((runFrom tL vB epoch fuel (iterState tL vB epoch)).broke = true ↔
        ∃ j, epoch ≤ j ∧ j < epoch + fuel ∧ 5 < badSeq vB (j + 1)) := by
  intro fuel
  induction fuel with
  | zero =>
      intro epoch h
      rw [runFrom, h]
      constructor
      · intro hh; cases hh
      · rintro ⟨j, h1, h2, _⟩; omega
  | succ fuel ih =>
      intro epoch h
      rw [runFrom]
      have hstep : epochStep tL vB (iterState tL vB epoch) epoch = iterState tL vB (epoch + 1) :=
        rfl
      rw [hstep]
      cases hbr : (iterState tL vB (epoch + 1)).broke
      · rw [if_neg (show ¬ false = true by decide), ih (epoch + 1) hbr]
        constructor
        · rintro ⟨j, h1, h2, h5⟩
          exact ⟨j, by omega, by omega, h5⟩
        · rintro ⟨j, h1, h2, h5⟩
          rcases Nat.eq_or_lt_of_le h1 with hEq | hlt
          · exfalso
            have hb : (iterState tL vB (epoch + 1)).broke = true :=
              ((iterState_spec tL vB (epoch + 1)).2.2.2.2.2.2).mpr ⟨j, by omega, h5⟩
            rw [hb] at hbr
            cases hbr
          · exact ⟨j, by omega, by omega, h5⟩
      · rw [if_pos (show true = true from rfl)]
        constructor
        · intro _
          obtain ⟨j, hj, h5⟩ := ((iterState_spec tL vB (epoch + 1)).2.2.2.2.2.2).mp hbr
          have hje : j = epoch := by
            by_contra hne
            have hjlt : j < epoch := by omega
            have hb : (iterState tL vB epoch).broke = true :=
              ((iterState_spec tL vB epoch).2.2.2.2.2.2).mpr ⟨j, hjlt, h5⟩
            rw [hb] at h
            cases h
          subst hje
          exact ⟨j, le_refl j, by omega, h5⟩
        · intro _
          exact (iterState_spec tL vB (epoch + 1)).2.2.2.2.2.2.mpr
            (((iterState_spec tL vB (epoch + 1)).2.2.2.2.2.2).mp hbr)

theorem runFrom_no_break (tL : ℕ → List ℚ) (vB : ℕ → List BatchEval) :
    ∀ (fuel epoch : ℕ),
      (∀ j, epoch ≤ j → j < epoch + fuel → ¬ 5 < badSeq vB (j + 1)) →
      (iterState tL vB epoch).broke = false →
      runFrom tL vB epoch fuel (iterState tL vB epoch) = iterState tL vB (epoch + fuel) := by
  intro fuel
  induction fuel with
  | zero =>
      intro epoch _ _
      rw [runFrom, Nat.add_zero]
  | succ fuel ih =>
      intro epoch hno h
      rw [runFrom]
      have hstep : epochStep tL vB (iterState tL vB epoch) epoch = iterState tL vB (epoch + 1) :=
        rfl
      rw [hstep]
      have hbr : (iterState tL vB (epoch + 1)).broke = false := by
        cases hbr : (iterState tL vB (epoch + 1)).broke
        · rfl
        · exfalso
          obtain ⟨j, hj, h5⟩ := ((iterState_spec tL vB (epoch + 1)).2.2.2.2.2.2).mp hbr
          rcases Nat.lt_succ_iff_lt_or_eq.mp hj with hlt | rfl
          · have hb : (iterState tL vB epoch).broke = true :=
              ((iterState_spec tL vB epoch).2.2.2.2.2.2).mpr ⟨j, hlt, h5⟩
            rw [hb] at h
            cases h
          · exact hno j (by omega) (by omega) h5
      have hnb : ¬ (iterState tL vB (epoch + 1)).broke = true := by simp [hbr]
      rw [if_neg hnb]
      have hrec := ih (epoch + 1) (fun j h1 h2 => hno j (by omega) (by omega)) hbr
      rw [hrec]
      congr 1
      omega

theorem runFrom_eq_iter (tL : ℕ → List ℚ) (vB : ℕ → List BatchEval) :
    ∀ (fuel epoch : ℕ), (iterState tL vB epoch).broke = false →
      ∃ n, n ≤ fuel ∧
        runFrom tL vB epoch fuel (iterState tL vB epoch) = iterState tL vB (epoch + n) := by
  intro fuel
  induction fuel with
  | zero =>
      intro epoch _
      exact ⟨0, le_refl 0, by rw [runFrom, Nat.add_zero]⟩
  | succ fuel ih =>
      intro epoch h
      rw [runFrom]
      have hstep : epochStep tL vB (iterState tL vB epoch) epoch = iterState tL vB (epoch + 1) :=
        rfl
      rw [hstep]
      cases hbr : (iterState tL vB (epoch + 1)).broke
      · rw [if_neg (show ¬ false = true by decide)]
        obtain ⟨n, hn, heq⟩ := ih (epoch + 1) hbr
        refine ⟨n + 1, by omega, ?_⟩
        rw [heq]
        congr 1
        omega
      · rw [if_pos (show true = true from rfl)]
        exact ⟨1, by omega, rfl⟩

theorem runTrain_eq_iterState (tL : ℕ → List ℚ) (vB : ℕ → List BatchEval) (epochs : ℕ) :
    ∃ n, n ≤ epochs ∧ runTrain tL vB epochs = iterState tL vB n ∧
      (runTrain tL vB epochs).done = n := by
  obtain ⟨n, hn, heq⟩ := runFrom_eq_iter tL vB epochs 0 rfl
  have heq' : runTrain tL vB epochs = iterState tL vB n := by
    show runFrom tL vB 0 epochs initState = iterState tL vB n
    have h0 : initState = iterState tL vB 0 := rfl
    rw [h0, heq]
    congr 1
    omega
  exact ⟨n, hn, heq', by rw [heq']; exact (iterState_spec tL vB n).1⟩

theorem bestFold_lt_iff (vB : ℕ → List BatchEval) (x : ℚ) :
    ∀ i, bestFold vB i < x ↔ 0 < x ∧ ∀ j, j < i → miouOf vB j < x := by
  intro i
  induction i with
  | zero => simp [bestFold]
  | succ i ih =>
      rw [bestFold, max_lt_iff, ih]
      constructor
      · rintro ⟨⟨hx, hall⟩, hmi⟩
        refine ⟨hx, fun j hj => ?_⟩
        rcases Nat.lt_succ_iff_lt_or_eq.mp hj with hlt | hEq
        · exact hall j hlt
        · rw [hEq]; exact hmi
      · rintro ⟨hx, hall⟩
        exact ⟨⟨hx, fun j hj => hall j (by omega)⟩, hall i (by omega)⟩

theorem badSeq_ge_iff (vB : ℕ → List BatchEval) :
    ∀ (m e : ℕ), m ≤ badSeq vB (e + 1) ↔
      (m ≤ e ∧ ∀ k, e + 1 - m ≤ k → k ≤ e → vlossOf vB (k - 1) < vlossOf vB k) := by
  intro m
  induction m with
  | zero =>
      intro e
      constructor
      · intro _
        exact ⟨Nat.zero_le e, fun k h1 h2 => absurd (le_trans h1 h2) (by omega)⟩
      · intro _
        exact Nat.zero_le _
  | succ m ih =>
      intro e
      rw [badSeq]
      by_cases hc : 0 < e ∧ vlossOf vB (e - 1) < vlossOf vB e
      · rw [if_pos hc]
        have he : e - 1 + 1 = e := by omega
        constructor
        · intro hle
          have hm : m ≤ badSeq vB (e - 1 + 1) := by rw [he]; omega
          obtain ⟨hme, hall⟩ := (ih (e - 1)).mp hm
          refine ⟨by omega, fun k h1 h2 => ?_⟩
          rcases Nat.eq_or_lt_of_le h2 with hEq | hlt
          · subst hEq
            exact hc.2
          · exact hall k (by omega) (by omega)
        · rintro ⟨hme, hall⟩
          have hm : m ≤ badSeq vB (e - 1 + 1) :=
            (ih (e - 1)).mpr ⟨by omega, fun k h1 h2 => hall k (by omega) (by omega)⟩
          rw [he] at hm
          omega
      · rw [if_neg hc]
        constructor
        · intro hle
          omega
        · rintro ⟨hme, hall⟩
          exfalso
          exact hc ⟨by omega, hall e (by omega) (le_refl e)⟩

theorem badSeq_constVloss (vB : ℕ → List BatchEval) (c : ℚ)
    (hc : ∀ e, vlossOf vB e = c) : ∀ k, badSeq vB k = 0 := by
  intro k
  cases k with
  | zero => rfl
  | succ k =>
      rw [badSeq, hc, hc]
      rw [if_neg (fun h => lt_irrefl c h.2)]

theorem runTrain_constVloss (tL : ℕ → List ℚ) (vB : ℕ → List BatchEval) (c : ℚ)
    (hc : ∀ e, vlossOf vB e = c) (epochs : ℕ) :
    runTrain tL vB epochs = iterState tL vB epochs := by
  have h := runFrom_no_break tL vB epochs 0
    (by intro j h1 h2; rw [badSeq_constVloss vB c hc]; omega) rfl
  show runFrom tL vB 0 epochs initState = iterState tL vB epochs
  have h0 : initState = iterState tL vB 0 := rfl
  rw [h0, h]
  congr 1
  omega

/-- Claim C1: in the training loop, the checkpoint is saved at an epoch
exactly when that epoch's validation mean-IoU strictly exceeds the best
mean-IoU of every earlier epoch (mean-IoU scores being positive, as genuine
IoU values are, since `best_iou_score` starts at `0.0`); in every other epoch
nothing is saved, and after a save `best_iou_score` equals that epoch's
mean-IoU. -/
theorem claim_C1_checkpoint_on_best_miou (tL : ℕ → List ℚ) (vB : ℕ → List BatchEval)
    (epochs : ℕ) (hpos : ∀ j, j < epochs → 0 < miouOf vB j) (i : ℕ)
    (hi : i < (runTrain tL vB epochs).done) :
    ((i ∈ (runTrain tL vB epochs).savedEpochs) ↔
      ∀ j, j < i → miouOf vB j < miouOf vB i) ∧
    (i ∈ (runTrain tL vB epochs).savedEpochs →
      (iterState tL vB (i + 1)).best_iou_score = miouOf vB i) := by
  obtain ⟨n, hn, heq, hdone⟩ := runTrain_eq_iterState tL vB epochs
  rw [hdone] at hi
  rw [heq, (iterState_spec tL vB n).2.2.2.2.2.1]
  have hmem : (i ∈ (List.range n).filter (fun j => decide (bestFold vB j < miouOf vB j))) ↔
      bestFold vB i < miouOf vB i := by
    rw [List.mem_filter]
    simp [List.mem_range, hi]
  rw [hmem]
  have hiff : bestFold vB i < miouOf vB i ↔ ∀ j, j < i → miouOf vB j < miouOf vB i := by
    rw [bestFold_lt_iff]
    constructor
    · rintro ⟨_, hall⟩
      exact hall
    · intro hall
      exact ⟨hpos i (by omega), hall⟩
  refine ⟨hiff, fun hlt => ?_⟩
  rw [(iterState_spec tL vB (i + 1)).2.2.2.1, bestFold]
  exact max_eq_right (le_of_lt hlt)

/-- Concrete inputs for the C1 witness: constant validation loss `1`, and
mean-IoU `j + 1` at epoch `j`. -/
def tLw1 : ℕ → List ℚ := fun _ => [1]

/-- Validation batches for the C1 witness. -/
def vBw1 : ℕ → List BatchEval := fun j => [⟨1, (j : ℚ) + 1, 1⟩]

theorem claim_C1_checkpoint_on_best_miou_witness :
    (1 ∈ (runTrain tLw1 vBw1 2).savedEpochs) ∧
    (iterState tLw1 vBw1 2).best_iou_score = miouOf vBw1 1 := by
  have hmiou : ∀ j, miouOf vBw1 j = (j : ℚ) + 1 := by
    intro j
    norm_num [miouOf, valTriple_eq, vBw1, npMean]
  have hpos : ∀ j, j < 2 → 0 < miouOf vBw1 j := by
    intro j hj
    rw [hmiou]
    positivity
  have hvl : ∀ e, vlossOf vBw1 e = 1 := by
    intro e
    norm_num [vlossOf, valTriple_eq, vBw1, npMean]
  have hrun : runTrain tLw1 vBw1 2 = iterState tLw1 vBw1 2 :=
    runTrain_constVloss tLw1 vBw1 1 hvl 2
  have hdone : (runTrain tLw1 vBw1 2).done = 2 := by
    rw [hrun]
    exact (iterState_spec tLw1 vBw1 2).1
  have h := claim_C1_checkpoint_on_best_miou tLw1 vBw1 2 hpos 1 (by omega)
  have hmono : ∀ j, j < 1 → miouOf vBw1 j < miouOf vBw1 1 := by
    intro j hj
    interval_cases j
    rw [hmiou, hmiou]
    norm_num
  exact ⟨h.1.mpr hmono, h.2 (h.1.mpr hmono)⟩

/-- Claim C2 (amended): the training loop executes its early-stopping `break`
if and only if, among the configured epochs, there is a run of consecutive
epochs longer than the patience of 5 in each of which the validation loss is
strictly greater than that of the immediately preceding epoch (an epoch whose
validation loss is not strictly greater than its predecessor's resets the
counter to zero, so non-strict "failures to improve" do not count). -/
theorem claim_C2_early_stopping (tL : ℕ → List ℚ) (vB : ℕ → List BatchEval)
    (epochs : ℕ) :
    (runTrain tL vB epochs).broke = true ↔
      ∃ e, e < epochs ∧ 6 ≤ e ∧
        ∀ k, e - 5 ≤ k → k ≤ e → vlossOf vB (k - 1) < vlossOf vB k := by
  have h := runFrom_broke tL vB epochs 0 rfl
  rw [show runTrain tL vB epochs = runFrom tL vB 0 epochs (iterState tL vB 0) from rfl, h]
  constructor
  · rintro ⟨j, _, hj, h5⟩
    have h6 : 6 ≤ badSeq vB (j + 1) := by omega
    obtain ⟨hje, hall⟩ := (badSeq_ge_iff vB 6 j).mp h6
    exact ⟨j, by omega, by omega, fun k h1 h2 => hall k (by omega) h2⟩
  · rintro ⟨e, he, h6e, hall⟩
    refine ⟨e, by omega, by omega, ?_⟩
    have h6 := (badSeq_ge_iff vB 6 e).mpr ⟨by omega, fun k h1 h2 => hall k (by omega) h2⟩
    omega

/-- Per-epoch training-batch losses for the C2 counterexample. -/
def tLc2 : ℕ → List ℚ := fun _ => [1]

/-- Validation batches for the C2 counterexample: every epoch's validation
loss is the constant `1`. -/
def vBc2 : ℕ → List BatchEval := fun _ => [⟨1, 1, 1⟩]

/-- Claim C2 as stated is false: with 8 configured epochs and a constant
validation loss, every one of epochs 1..7 fails to improve on its predecessor
(`1 < 1` is false, so the loss is not smaller), a run of 7 > 5 non-improving
epochs, yet the loop completes all 8 epochs and never breaks: only strict
worsening increments the counter. -/
theorem claim_C2_counterexample :
    (¬ vlossOf vBc2 1 < vlossOf vBc2 0) ∧
    (¬ vlossOf vBc2 2 < vlossOf vBc2 1) ∧
    (¬ vlossOf vBc2 3 < vlossOf vBc2 2) ∧
    (¬ vlossOf vBc2 4 < vlossOf vBc2 3) ∧
    (¬ vlossOf vBc2 5 < vlossOf vBc2 4) ∧
    (¬ vlossOf vBc2 6 < vlossOf vBc2 5) ∧
    (¬ vlossOf vBc2 7 < vlossOf vBc2 6) ∧
    (runTrain tLc2 vBc2 8).done = 8 ∧
    (runTrain tLc2 vBc2 8).broke = false ∧
    (runTrain tLc2 vBc2 8).earlyStopAt = -1 := by
  have hvl : ∀ e, vlossOf vBc2 e = 1 := by
    intro e
    norm_num [vlossOf, valTriple_eq, vBc2, npMean]
  have hrun : runTrain tLc2 vBc2 8 = iterState tLc2 vBc2 8 :=
    runTrain_constVloss tLc2 vBc2 1 hvl 8
  have hbroke : (iterState tLc2 vBc2 8).broke = false := by
    cases hb : (iterState tLc2 vBc2 8).broke
    · rfl
    · exfalso
      obtain ⟨j, hj, h5⟩ := ((iterState_spec tLc2 vBc2 8).2.2.2.2.2.2).mp hb
      rw [badSeq_constVloss vBc2 1 hvl] at h5
      omega
  have hstop : ∀ k, (iterState tLc2 vBc2 k).earlyStopAt = -1 := by
    intro k
    induction k with
    | zero => rfl
    | succ k ih =>
        have hb : (epochStepData (iterState tLc2 vBc2 k) k (tLc2 k) (vBc2 k)).bad_epochs = 0 :=
          ((iterState_spec tLc2 vBc2 (k + 1)).2.2.2.2.1).trans
            (badSeq_constVloss vBc2 1 hvl (k + 1))
        show (epochStepData (iterState tLc2 vBc2 k) k (tLc2 k) (vBc2 k)).earlyStopAt = -1
        rw [epochStepData_earlyStopAt _ _ _ _ (by omega)]
        exact ih
  refine ⟨?_, ?_, ?_, ?_, ?_, ?_, ?_, ?_, ?_, ?_⟩
  any_goals (rw [hvl, hvl]; exact lt_irrefl 1)
  · rw [hrun]
    exact (iterState_spec tLc2 vBc2 8).1
  · rw [hrun]
    exact hbroke
  · rw [hrun]
    exact hstop 8

/-- Claim C3: `get_model_optimizer_scheduler` raises an unbound-local
`NameError` at its `return` statement whenever `cosine_annealing` is false
(`scheduler` never assigned) or `use_class_weights` is false (`class_weights`
never assigned), and returns normally exactly when both toggles are true. -/
theorem claim_C3_unbound_local_return (cosine_annealing use_class_weights : Bool)
    (epochs : ℕ) (model_type model_identifier : String) (freeze_encoder : Bool)
    (w : List ℚ) (cudaAvail : Bool) :
    ((∃ n, get_model_optimizer_scheduler cosine_annealing use_class_weights epochs
        model_type model_identifier freeze_encoder w cudaAvail =
        Except.error (PyExc.nameErr n)) ↔
      (cosine_annealing = false ∨ use_class_weights = false)) ∧
    ((∃ g, get_model_optimizer_scheduler cosine_annealing use_class_weights epochs
        model_type model_identifier freeze_encoder w cudaAvail = Except.ok g) ↔
      (cosine_annealing = true ∧ use_class_weights = true)) := by
  cases cosine_annealing <;> cases use_class_weights <;>
    simp [get_model_optimizer_scheduler]

/-- Claim C5: the recorded per-epoch training loss is the arithmetic mean of
that epoch's per-batch training losses, and `val` returns the arithmetic means
over validation batches of per-batch IoU, pixel accuracy and loss, in the
order (mean-IoU, accuracy, loss). -/
theorem claim_C5_metric_aggregation :
    (∀ (tL : ℕ → List ℚ) (vB : ℕ → List BatchEval) (epochs i : ℕ),
      i < (runTrain tL vB epochs).done → tL i ≠ [] →
      (runTrain tL vB epochs).train_loss.getD i 0 =
        (tL i).sum / ((tL i).length : ℚ)) ∧
    (∀ (m : Model) (bs : List BatchEval), bs ≠ [] →
      (valRun m bs).2 =
        ((bs.map BatchEval.iouVal).sum / (bs.length : ℚ),
         (bs.map BatchEval.accVal).sum / (bs.length : ℚ),
         (bs.map BatchEval.lossVal).sum / (bs.length : ℚ))) := by
  constructor
  · intro tL vB epochs i hi _
    obtain ⟨n, hn, heq, hdone⟩ := runTrain_eq_iterState tL vB epochs
    rw [hdone] at hi
    rw [heq, (iterState_spec tL vB n).2.2.1, getD_range_map _ _ _ hi]
    rfl
  · intro m bs _
    rw [valRun_eq]
    simp [npMean]

/-- Per-epoch training-batch losses for the C5 witness. -/
def tLx5 : ℕ → List ℚ := fun _ => [1, 3]

/-- Validation batches for the C5 witness. -/
def vBx5 : ℕ → List BatchEval := fun _ => [⟨5, 3, 4⟩]

theorem claim_C5_metric_aggregation_witness :
    (runTrain tLx5 vBx5 1).train_loss.getD 0 0 = ((1 : ℚ) + 3) / 2 ∧
    (valRun defaultModel [⟨5, 3, 4⟩]).2 = ((3 : ℚ), (4 : ℚ), (5 : ℚ)) := by
  have hvl : ∀ e, vlossOf vBx5 e = 5 := by
    intro e
    norm_num [vlossOf, valTriple_eq, vBx5, npMean]
  have hrun : runTrain tLx5 vBx5 1 = iterState tLx5 vBx5 1 :=
    runTrain_constVloss tLx5 vBx5 5 hvl 1
  have hdone : (runTrain tLx5 vBx5 1).done = 1 := by
    rw [hrun]
    exact (iterState_spec tLx5 vBx5 1).1
  constructor
  · have h := claim_C5_metric_aggregation.1 tLx5 vBx5 1 0 (by omega) (by simp [tLx5])
    rw [h]
    norm_num [tLx5]
  · have h := claim_C5_metric_aggregation.2 defaultModel [⟨5, 3, 4⟩] (by simp)
    rw [h]
    norm_num

/-- Claim C6: the compute device is `"cuda"` exactly when CUDA is reported
available and `"cpu"` otherwise, and the model returned for training has been
transferred to that device. -/
theorem claim_C6_device_selection (cosine_annealing use_class_weights : Bool)
    (epochs : ℕ) (model_type model_identifier : String) (freeze_encoder : Bool)
    (w : List ℚ) (cudaAvail : Bool) (g : GMOS)
    (h : get_model_optimizer_scheduler cosine_annealing use_class_weights epochs
      model_type model_identifier freeze_encoder w cudaAvail = Except.ok g) :
    (g.device = if cudaAvail then "cuda" else "cpu") ∧
    (g.device = "cuda" ↔ cudaAvail = true) ∧
    g.fcn_model.device = g.device := by
  cases cosine_annealing <;> cases use_class_weights <;>
    simp [get_model_optimizer_scheduler] at h
  subst h
  cases cudaAvail <;> refine ⟨rfl, ?_, rfl⟩ <;> simp

/-- The value `get_model_optimizer_scheduler` returns on the C6 witness
inputs. -/
def gX6 : GMOS := ⟨⟨ModelKind.unet, 21, [], true, "cuda"⟩, "cuda", 1, "run1", true⟩

theorem claim_C6_device_selection_witness :
    (gX6.device = if true then "cuda" else "cpu") ∧
    (gX6.device = "cuda" ↔ true = true) ∧ gX6.fcn_model.device = gX6.device :=
  claim_C6_device_selection true true 1 "unet" "run1" false [] true gX6 rfl

/-- Claim C9: any `model_type` whose lower-cased form is none of the seven
recognised names (misspellings and the empty string included) silently yields
the basic FCN model with 21 classes instead of an error. -/
theorem claim_C9_unknown_model_type_default (model_type : String) (freeze_encoder : Bool)
    (w : List ℚ)
    (h : lowerStr model_type ∉ (["unet", "resnet", "new_arch", "resnet50", "resnet_leaky",
      "resnet_2model_skip_res_cat", "resnet_skip_residual"] : List String)) :
    buildModel model_type freeze_encoder w = ⟨ModelKind.fcn, 21, w, true, "cpu"⟩ := by
  simp only [List.mem_cons, List.not_mem_nil, or_false, not_or] at h
  obtain ⟨h1, h2, h3, h4, h5, h6, h7⟩ := h
  simp [buildModel, h1, h2, h3, h4, h5, h6, h7]

theorem claim_C9_unknown_model_type_default_witness :
    buildModel "resnte" false [] = ⟨ModelKind.fcn, 21, [], true, "cpu"⟩ :=
  claim_C9_unknown_model_type_default "resnte" false [] (by decide)

/-- Claim C10: `val` puts the model back in training mode before returning
(even though it enters eval mode first), and the model's parameters are
unchanged by the call: everything runs under `no_grad` with no optimizer
step. -/
theorem claim_C10_val_frame (m : Model) (batches : List BatchEval) :
    (valRun m batches).1.training = true ∧ (valRun m batches).1.params = m.params := by
  rw [valRun_eq]
  exact ⟨rfl, rfl⟩

/-- The eight keys `load_constants` reads from the config, in access order. -/
def configKeys : List String :=
  ["cosine_annealing", "random_transforms", "class_imbalance_fix", "epochs",
   "batch_size", "model_type", "model_identifier", "freeze_encoder"]

/-- Claim C7: `load_constants` returns exactly the values of the eight config
keys when all are present, and raises a `KeyError` (naming a missing key) when
any of them is absent. -/
theorem claim_C7_load_constants (config : List (String × YVal)) :
    (∀ v1 v2 v3 v4 v5 v6 v7 v8 : YVal,
      config.lookup "cosine_annealing" = some v1 →
      config.lookup "random_transforms" = some v2 →
      config.lookup "class_imbalance_fix" = some v3 →
      config.lookup "epochs" = some v4 →
      config.lookup "batch_size" = some v5 →
      config.lookup "model_type" = some v6 →
      config.lookup "model_identifier" = some v7 →
      config.lookup "freeze_encoder" = some v8 →
      load_constants config = Except.ok (v1, v2, v3, v4, v5, v6, v7, v8)) ∧
    ((∃ k, k ∈ configKeys ∧ config.lookup k = none) →
      ∃ k, k ∈ configKeys ∧ config.lookup k = none ∧
        load_constants config = Except.error (PyExc.keyErr k)) := by
  constructor
  · intro v1 v2 v3 v4 v5 v6 v7 v8 h1 h2 h3 h4 h5 h6 h7 h8
    simp [load_constants, getKey, h1, h2, h3, h4, h5, h6, h7, h8, Bind.bind, Except.bind,
      Pure.pure, Except.pure]
  · intro hex
    rcases hk1 : config.lookup "cosine_annealing" with _ | v1
    · exact ⟨"cosine_annealing", by simp [configKeys], hk1,
        by simp [load_constants, getKey, hk1, Bind.bind, Except.bind]⟩
    rcases hk2 : config.lookup "random_transforms" with _ | v2
    · exact ⟨"random_transforms", by simp [configKeys], hk2,
        by simp [load_constants, getKey, hk1, hk2, Bind.bind, Except.bind]⟩
    rcases hk3 : config.lookup "class_imbalance_fix" with _ | v3
    · exact ⟨"class_imbalance_fix", by simp [configKeys], hk3,
        by simp [load_constants, getKey, hk1, hk2, hk3, Bind.bind, Except.bind]⟩
    rcases hk4 : config.lookup "epochs" with _ | v4
    · exact ⟨"epochs", by simp [configKeys], hk4,
        by simp [load_constants, getKey, hk1, hk2, hk3, hk4, Bind.bind, Except.bind]⟩
    rcases hk5 : config.lookup "batch_size" with _ | v5
    · exact ⟨"batch_size", by simp [configKeys], hk5,
        by simp [load_constants, getKey, hk1, hk2, hk3, hk4, hk5, Bind.bind, Except.bind]⟩
    rcases hk6 : config.lookup "model_type" with _ | v6
    · exact ⟨"model_type", by simp [configKeys], hk6,
        by simp [load_constants, getKey, hk1, hk2, hk3, hk4, hk5, hk6, Bind.bind, Except.bind]⟩
    rcases hk7 : config.lookup "model_identifier" with _ | v7
    · exact ⟨"model_identifier", by simp [configKeys], hk7,
        by simp [load_constants, getKey, hk1, hk2, hk3, hk4, hk5, hk6, hk7,
          Bind.bind, Except.bind]⟩
    rcases hk8 : config.lookup "freeze_encoder" with _ | v8
    · exact ⟨"freeze_encoder", by simp [configKeys], hk8,
        by simp [load_constants, getKey, hk1, hk2, hk3, hk4, hk5, hk6, hk7, hk8,
          Bind.bind, Except.bind]⟩
    obtain ⟨k, hk, hnone⟩ := hex
    simp only [configKeys, List.mem_cons, List.not_mem_nil, or_false] at hk
    rcases hk with rfl | rfl | rfl | rfl | rfl | rfl | rfl | rfl <;> simp_all

/-- A complete config for the C7 witness. -/
def cfgOk : List (String × YVal) :=
  [("cosine_annealing", YVal.yBool true), ("random_transforms", YVal.yBool false),
   ("class_imbalance_fix", YVal.yBool true), ("epochs", YVal.yNat 20),
   ("batch_size", YVal.yNat 16), ("model_type", YVal.yStr "resnet"),
   ("model_identifier", YVal.yStr "run1"), ("freeze_encoder", YVal.yBool false)]

/-- A config containing only `epochs`, for the C7 witness. -/
def cfgMissing : List (String × YVal) := [("epochs", YVal.yNat 20)]

theorem claim_C7_load_constants_witness :
    load_constants cfgOk = Except.ok (YVal.yBool true, YVal.yBool false, YVal.yBool true,
      YVal.yNat 20, YVal.yNat 16, YVal.yStr "resnet", YVal.yStr "run1",
      YVal.yBool false) ∧
    (∃ k, k ∈ configKeys ∧ cfgMissing.lookup k = none ∧
      load_constants cfgMissing = Except.error (PyExc.keyErr k)) := by
  constructor
  · exact (claim_C7_load_constants cfgOk).1 _ _ _ _ _ _ _ _ rfl rfl rfl rfl rfl rfl rfl rfl
  · exact (claim_C7_load_constants cfgMissing).2 ⟨"cosine_annealing", by decide, rfl⟩

/-- Claim C4 as stated is false: `save_location` is `'Results' + '/' + id` and
the artifact name is appended with no separator, so for slash-free identifiers
the checkpoints of two distinct runs live in the SAME directory `Results` (as
sibling files distinguished only by a name prefix), not in a distinct per-run
directory: here the `runA` and `runB` checkpoints both sit directly in
`Results`, at `Results/runAmodel.pt` and `Results/runBmodel.pt`. -/
theorem claim_C4_counterexample :
    parentDir (checkpoint_path "runA") = "Results" ∧
    parentDir (checkpoint_path "runB") = "Results" ∧
    ("runA" : String) ≠ "runB" ∧
    checkpoint_path "runA" = "Results/runAmodel.pt" := by
  refine ⟨?_, ?_, ?_, ?_⟩ <;> decide

theorem dropWhile_append_of_forall {p : Char → Bool} :
    ∀ (l1 l2 : List Char), (∀ c ∈ l1, p c = true) →
      List.dropWhile p (l1 ++ l2) = List.dropWhile p l2 := by
  intro l1
  induction l1 with
  | nil => intro l2 _; rfl
  | cons x rest ih =>
      intro l2 h
      rw [List.cons_append, List.dropWhile_cons, if_pos (h x (by simp))]
      exact ih l2 (fun c hc => h c (by simp [hc]))

/-- Claim C4 (amended): every artifact of a run is written at a path extending
the per-run prefix `Results/<id>` (the `save_location`), so distinct run
identifiers yield distinct artifact paths; but for identifiers containing no
path separator all runs' artifacts sit directly in the single `Results`
directory, with the identifier as a file-name prefix, rather than in a
distinct per-run subdirectory. -/
theorem claim_C4_results_paths :
    (∀ mi s : String, artifact_path mi s = "Results/" ++ mi ++ s) ∧
    (∀ mi : String, checkpoint_path mi = artifact_path mi "model.pt") ∧
    (∀ mi1 mi2 s : String, mi1 ≠ mi2 → artifact_path mi1 s ≠ artifact_path mi2 s) ∧
    (∀ mi : String, '/' ∉ mi.data → parentDir (checkpoint_path mi) = "Results") := by
  have hpre : ∀ mi s : String, artifact_path mi s = "Results/" ++ mi ++ s := by
    intro mi s
    rfl
  refine ⟨hpre, fun mi => rfl, ?_, ?_⟩
  · intro mi1 mi2 s hne heq
    apply hne
    rw [hpre, hpre] at heq
    have hd := congrArg String.data heq
    simp only [String.data_append, List.append_assoc] at hd
    exact String.ext (List.append_cancel_right (List.append_cancel_left hd))
  · intro mi hmi
    have hcp : checkpoint_path mi = "Results/" ++ mi ++ "model.pt" := rfl
    have hmp : ∀ c ∈ "model.pt".data.reverse, (c != '/') = true := by decide
    have hmirev : ∀ c ∈ mi.data.reverse, (c != '/') = true := by
      intro c hc
      rw [List.mem_reverse] at hc
      exact bne_iff_ne.mpr (fun hEq => hmi (hEq ▸ hc))
    have hR : "Results/".data.reverse = '/' :: "stluseR".data := by decide
    rw [hcp]
    apply String.ext
    simp only [parentDir]
    rw [String.data_append, String.data_append, List.reverse_append, List.reverse_append,
      dropWhile_append_of_forall _ _ hmp, dropWhile_append_of_forall _ _ hmirev, hR,
      List.dropWhile_cons, if_neg (by decide)]
    decide

theorem claim_C4_results_paths_witness :
    artifact_path "runA1" "model.pt" ≠ artifact_path "runB1" "model.pt" ∧
    parentDir (checkpoint_path "runC1") = "Results" := by
  constructor
  · exact claim_C4_results_paths.2.2.1 "runA1" "runB1" "model.pt" (by decide)
  · exact claim_C4_results_paths.2.2.2 "runC1" (by decide)

theorem valE_error :
    ∀ (pre post : List (Except PyExc BatchEval)) (e : PyExc)
      (acc : List ℚ × List ℚ × List ℚ),
      (∀ x ∈ pre, ∃ v, x = Except.ok v) →
      valE (pre ++ Except.error e :: post) acc = Except.error e := by
  intro pre
  induction pre with
  | nil =>
      intro post e acc _
      rfl
  | cons x rest ih =>
      intro post e acc h
      obtain ⟨v, hv⟩ := h x (by simp)
      subst hv
      rw [List.cons_append]
      exact ih post e _ (fun y hy => h y (by simp [hy]))

theorem modelTestLoopE_error :
    ∀ (pre post : List (Except PyExc BatchEval)) (e : PyExc)
      (acc : List ℚ × List ℚ × List ℚ),
      (∀ x ∈ pre, ∃ v, x = Except.ok v) →
      modelTestLoopE (pre ++ Except.error e :: post) acc = Except.error e := by
  intro pre
  induction pre with
  | nil =>
      intro post e acc _
      rfl
  | cons x rest ih =>
      intro post e acc h
      obtain ⟨v, hv⟩ := h x (by simp)
      subst hv
      rw [List.cons_append]
      exact ih post e _ (fun y hy => h y (by simp [hy]))

theorem runFromE_error (tvB : ℕ → Except PyExc (List ℚ × List BatchEval))
    (tL : ℕ → List ℚ) (vB : ℕ → List BatchEval) (e : PyExc) :
    ∀ (k fuel epoch : ℕ), k < fuel →
      (∀ j, j < k → tvB (epoch + j) = Except.ok (tL (epoch + j), vB (epoch + j))) →
      tvB (epoch + k) = Except.error e →
      (iterState tL vB (epoch + k)).broke = false →
      runFromE tvB epoch fuel (iterState tL vB epoch) = Except.error e := by
  intro k
  induction k with
  | zero =>
      intro fuel epoch hf _ herr _
      cases fuel with
      | zero => omega
      | succ fuel =>
          rw [runFromE, show tvB epoch = Except.error e from herr]
  | succ k ih =>
      intro fuel epoch hf hok herr hbroke
      cases fuel with
      | zero => omega
      | succ fuel =>
          have h0 : tvB epoch = Except.ok (tL epoch, vB epoch) := by
            have h := hok 0 (by omega)
            simpa using h
          rw [runFromE, h0]
          dsimp only
          have hstep : epochStepData (iterState tL vB epoch) epoch (tL epoch) (vB epoch) =
              iterState tL vB (epoch + 1) := rfl
          rw [hstep]
          have hbr1 : (iterState tL vB (epoch + 1)).broke = false := by
            cases hb : (iterState tL vB (epoch + 1)).broke
            · rfl
            · exfalso
              have hmono := iterState_broke_mono tL vB
                (show epoch + 1 ≤ epoch + (k + 1) by omega) hb
              rw [hmono] at hbroke
              cases hbroke
          have hn : ¬ (iterState tL vB (epoch + 1)).broke = true := by simp [hbr1]
          rw [if_neg hn]
          refine ih fuel (epoch + 1) (by omega) ?_ ?_ ?_
          · intro j hj
            have h := hok (j + 1) (by omega)
            rwa [show epoch + (j + 1) = epoch + 1 + j by omega] at h
          · rwa [show epoch + (k + 1) = epoch + 1 + k by omega] at herr
          · rwa [show epoch + (k + 1) = epoch + 1 + k by omega] at hbroke

/-- Claim C8: no function of the script catches exceptions: the first
exception raised by a framework step inside `val`, inside the `train` epoch
loop, or inside `modelTest` (including a failing `torch.load`) propagates out
of that function unchanged, and an exception from any of the five stages of
the main block (config loading, setup, pre-training `val`, `train`,
`modelTest`) aborts the whole program with that same exception. -/
theorem claim_C8_exceptions_propagate :
    (∀ (pre post : List (Except PyExc BatchEval)) (e : PyExc)
        (acc : List ℚ × List ℚ × List ℚ),
      (∀ x ∈ pre, ∃ v, x = Except.ok v) →
      valE (pre ++ Except.error e :: post) acc = Except.error e) ∧
    (∀ (tvB : ℕ → Except PyExc (List ℚ × List BatchEval)) (tL : ℕ → List ℚ)
        (vB : ℕ → List BatchEval) (epochs k : ℕ) (e : PyExc),
      k < epochs →
      (∀ j, j < k → tvB j = Except.ok (tL j, vB j)) →
      tvB k = Except.error e →
      (iterState tL vB k).broke = false →
      runFromE tvB 0 epochs initState = Except.error e) ∧
    (∀ (batches : List (Except PyExc BatchEval)) (e : PyExc),
      modelTestE (Except.error e) batches = Except.error e) ∧
    (∀ (m : Model) (pre post : List (Except PyExc BatchEval)) (e : PyExc),
      (∀ x ∈ pre, ∃ v, x = Except.ok v) →
      modelTestE (Except.ok m) (pre ++ Except.error e :: post) = Except.error e) ∧
    (∀ (config : List (String × YVal)) (ca ucw : Bool) (epochs : ℕ) (mt mi : String)
        (fe : Bool) (w : List ℚ) (avail : Bool)
        (valB0 : List (Except PyExc BatchEval))
        (tvB : ℕ → Except PyExc (List ℚ × List BatchEval))
        (loadRes : Except PyExc Model) (testB : List (Except PyExc BatchEval)) (e : PyExc),
      (load_constants config = Except.error e →
        mainRun config ca ucw epochs mt mi fe w avail valB0 tvB loadRes testB =
          Except.error e) ∧
      (∀ c, load_constants config = Except.ok c →
        get_model_optimizer_scheduler ca ucw epochs mt mi fe w avail = Except.error e →
        mainRun config ca ucw epochs mt mi fe w avail valB0 tvB loadRes testB =
          Except.error e) ∧
      (∀ c g, load_constants config = Except.ok c →
        get_model_optimizer_scheduler ca ucw epochs mt mi fe w avail = Except.ok g →
        valE valB0 ([], [], []) = Except.error e →
        mainRun config ca ucw epochs mt mi fe w avail valB0 tvB loadRes testB =
          Except.error e) ∧
      (∀ c g r, load_constants config = Except.ok c →
        get_model_optimizer_scheduler ca ucw epochs mt mi fe w avail = Except.ok g →
        valE valB0 ([], [], []) = Except.ok r →
        runFromE tvB 0 epochs initState = Except.error e →
        mainRun config ca ucw epochs mt mi fe w avail valB0 tvB loadRes testB =
          Except.error e) ∧
      (∀ c g r t, load_constants config = Except.ok c →
        get_model_optimizer_scheduler ca ucw epochs mt mi fe w avail = Except.ok g →
        valE valB0 ([], [], []) = Except.ok r →
        runFromE tvB 0 epochs initState = Except.ok t →
        modelTestE loadRes testB = Except.error e →
        mainRun config ca ucw epochs mt mi fe w avail valB0 tvB loadRes testB =
          Except.error e)) := by
  refine ⟨valE_error, ?_, ?_, ?_, ?_⟩
  · intro tvB tL vB epochs k e hk hok herr hbroke
    have h := runFromE_error tvB tL vB e k epochs 0 hk
      (by intro j hj; simpa using hok j hj) (by simpa using herr) (by simpa using hbroke)
    exact h
  · intro batches e
    rfl
  · intro m pre post e h
    exact modelTestLoopE_error pre post e _ h
  · intro config ca ucw epochs mt mi fe w avail valB0 tvB loadRes testB e
    refine ⟨?_, ?_, ?_, ?_, ?_⟩
    · intro h1
      simp [mainRun, h1, Bind.bind, Except.bind]
    · intro c h1 h2
      simp [mainRun, h1, h2, Bind.bind, Except.bind]
    · intro c g h1 h2 h3
      simp [mainRun, h1, h2, h3, Bind.bind, Except.bind]
    · intro c g r h1 h2 h3 h4
      simp [mainRun, h1, h2, h3, h4, Bind.bind, Except.bind]
    · intro c g r t h1 h2 h3 h4 h5
      simp [mainRun, h1, h2, h3, h4, h5, Bind.bind, Except.bind]

/-- The exception used in the C8 witness. -/
def excOOM : PyExc := PyExc.runtimeErr "CUDA out of memory"

/-- Fallible per-epoch oracle for the C8 witness: epoch 0 already raises. -/
def tvBw8 : ℕ → Except PyExc (List ℚ × List BatchEval) := fun _ => Except.error excOOM

/-- Training-loss oracle for the C8 witness. -/
def tLw8 : ℕ → List ℚ := fun _ => [1]

/-- Validation-batch oracle for the C8 witness. -/
def vBw8 : ℕ → List BatchEval := fun _ => [⟨1, 1, 1⟩]

theorem claim_C8_exceptions_propagate_witness :
    valE [Except.error excOOM] ([], [], []) = Except.error excOOM ∧
    runFromE tvBw8 0 1 initState = Except.error excOOM ∧
    modelTestE (Except.error excOOM) [] = Except.error excOOM ∧
    modelTestE (Except.ok defaultModel) [Except.error excOOM] = Except.error excOOM ∧
    mainRun [] true true 1 "unet" "run1" false [] true [] tvBw8
      (Except.ok defaultModel) [] = Except.error (PyExc.keyErr "cosine_annealing") := by
  refine ⟨?_, ?_, ?_, ?_, ?_⟩
  · exact claim_C8_exceptions_propagate.1 [] [] excOOM ([], [], []) (by simp)
  · exact claim_C8_exceptions_propagate.2.1 tvBw8 tLw8 vBw8 1 0 excOOM (by omega)
      (by intro j hj; omega) rfl rfl
  · exact claim_C8_exceptions_propagate.2.2.1 [] excOOM
  · exact claim_C8_exceptions_propagate.2.2.2.1 defaultModel [] [] excOOM (by simp)
  · exact (claim_C8_exceptions_propagate.2.2.2.2 [] true true 1 "unet" "run1" false [] true
      [] tvBw8 (Except.ok defaultModel) [] (PyExc.keyErr "cosine_annealing")).1 rfl
